import Mathlib

/-!
Verification of the client-side cache-and-synchronization engine in
`src/utils/databaseOptimizations.ts` and `src/hooks/use-optimized-stories.ts`.

The TypeScript code is shallowly embedded: each class's mutable state becomes
an explicit state value, each method a pure function from state (plus a
virtual clock `now : Nat` standing for `Date.now()`) to state.  Remote calls
are parameterised by an injected transport so that failure scenarios can be
expressed; the sequential `await` loops of the source become folds that
record a trace of remote-call events.

Layout: all definitions first (CacheManager, BackgroundSync plus
ErrorHandler, BatchOperations, the useOptimizedStories hook), then the
theorems about them.
-/

namespace DBOpt

/-!
Definitions: CacheManager (`databaseOptimizations.ts` lines 5-77).

The cache is a `Map<string, { data; timestamp; ttl }>`, embedded as an
association list with unique keys (`set` overwrites unconditionally).
-/

structure CacheItem (α : Type) where
  data : α
  timestamp : Nat
  ttl : Nat
  deriving Repr, DecidableEq

abbrev Cache (α : Type) : Type := List (String × CacheItem α)

/-- Lookup (`Map.get`) on the embedded association list. -/
def cacheLookup {α : Type} (key : String) : Cache α → Option (CacheItem α)
  | [] => none
  | (k, v) :: rest => if k = key then some v else cacheLookup key rest

/-- Deletion (`Map.delete key`) on the embedded association list. -/
def cacheErase {α : Type} (key : String) : Cache α → Cache α
  | [] => []
  | (k, v) :: rest =>
      if k = key then cacheErase key rest else (k, v) :: cacheErase key rest

/-- Embeds `CacheManager.set(key, data, ttl)` (lines 25-31): stores
`{ data, timestamp: Date.now(), ttl }`, overwriting any entry for `key`. -/
def cacheSet {α : Type} (c : Cache α) (key : String) (data : α)
    (now ttl : Nat) : Cache α :=
  (key, ⟨data, now, ttl⟩) :: cacheErase key c

/-- Embeds `CacheManager.get(key)` (lines 33-43): returns `null` if the key
is absent; if `Date.now() - item.timestamp > item.ttl` deletes the entry and
returns `null`; otherwise returns the stored data.  Returns the result
together with the (possibly shrunk) cache. -/
def cacheGet {α : Type} (c : Cache α) (key : String) (now : Nat) :
    Option α × Cache α :=
  match cacheLookup key c with
  | none => (none, c)
  | some item =>
      if item.ttl < now - item.timestamp then (none, cacheErase key c)
      else (some item.data, c)

/-!
Definitions: BackgroundSync (`databaseOptimizations.ts` lines 351-453) and
ErrorHandler (lines 456-493).

Operations carry one of the three payload shapes that
`executeOperation` (lines 418-436) switches on.  `addToQueue` (lines 369-379)
wraps a payload with `timestamp: Date.now()` and `retries: 0`.
`processQueue` (lines 392-416) snapshots the queue, clears it, then for each
operation in order awaits the remote call; on failure it re-pushes the
operation with `retries + 1` when `retries < maxRetries` and otherwise drops
it.  The remote store is an injected transport `OpData → Option RemoteError`
(`none` = success); the trace records, for each operation, the start of its
remote call and its settlement (success or failure), in the order the
sequential `await` loop produces them.
-/

inductive OpData where
  | story_view (story_id viewer_id : String)
  | increment_views (story_uuid viewer_uuid : String)
  | notification (data : String)
  deriving Repr, DecidableEq

structure SyncOp where
  op : OpData
  timestamp : Nat
  retries : Nat
  deriving Repr, DecidableEq

/-- Supabase error object as probed by `ErrorHandler` (lines 483-492). -/
structure RemoteError where
  message : String
  code : String
  deriving Repr, DecidableEq

/-- JS `lhs.includes(pat)` on strings. -/
def strIncludes (s pat : String) : Bool :=
  go pat.toList s.toList
where
  isPre : List Char → List Char → Bool
    | [], _ => true
    | _ :: _, [] => false
    | p :: ps, c :: cs => p = c && isPre ps cs
  go (pat : List Char) : List Char → Bool
    | [] => isPre pat []
    | c :: cs => isPre pat (c :: cs) || go pat cs

/-- Embeds `ErrorHandler.isNetworkError` (lines 483-487): message includes
`"fetch"` or `"network"`, or code is `"NETWORK_ERROR"`. -/
def isNetworkError (e : RemoteError) : Bool :=
  strIncludes e.message "fetch" || strIncludes e.message "network" ||
    e.code = "NETWORK_ERROR"

def maxRetries : Nat := 3

/-- Remote-call trace events: `start d` when the call for payload `d` is
issued, `settled d` when it has completed (fulfilled or rejected). -/
inductive SyncEv where
  | start (d : OpData)
  | settled (d : OpData)
  deriving Repr, DecidableEq

/-- Embeds `BackgroundSync.addToQueue` (lines 369-379): appends
`{ ...operation, timestamp: Date.now(), retries: 0 }`. -/
def addToQueue (q : List SyncOp) (d : OpData) (now : Nat) : List SyncOp :=
  q ++ [⟨d, now, 0⟩]

/-- Embeds `BackgroundSync.processQueue` (lines 392-416): the drain loop
over a snapshot of the queue.  Returns the re-queued failures (in order)
and the remote-call trace. -/
def processQueue (transport : OpData → Option RemoteError)
    (ops : List SyncOp) : List SyncOp × List SyncEv :=
  ops.foldl
    (fun acc operation =>
      match transport operation.op with
      | none =>
          (acc.1, acc.2 ++ [.start operation.op, .settled operation.op])
      | some _ =>
          if operation.retries < maxRetries then
            (acc.1 ++ [{ operation with retries := operation.retries + 1 }],
              acc.2 ++ [.start operation.op, .settled operation.op])
          else
            (acc.1, acc.2 ++ [.start operation.op, .settled operation.op]))
    ([], [])

/-- Runs `n` successive drains (the periodic 30 s timer / online signal
calling `processQueue` repeatedly), keeping only the queue. -/
def drainN (transport : OpData → Option RemoteError) :
    Nat → List SyncOp → List SyncOp
  | 0, q => q
  | n + 1, q => drainN transport n (processQueue transport q).1

/-- A transport that rejects every call with the given error. -/
def alwaysFail (e : RemoteError) : OpData → Option RemoteError := fun _ => some e

def someNetErr : RemoteError := ⟨"failed to fetch", "NETWORK_ERROR"⟩

/-- A remote error representing a validation failure (a Postgres check
violation): not a network error. -/
def validationErr : RemoteError := ⟨"invalid payload", "23514"⟩

/-!
Definitions: BatchOperations (`databaseOptimizations.ts` lines 80-209).

Per `kind` the class keeps a pending payload array (`pendingOperations`) and
an armed timeout (`timeouts`); groups for different kinds never interact, so
the state of one kind's group is embedded as `Group`.  Virtual time: an armed
timeout is its absolute fire deadline; `runAdds` replays a chronological
sequence of `addToBatch` calls, firing a due timer before each arrival (a
timer whose deadline is strictly before the arrival has already fired; at a
tie the synchronous call runs first) and firing the remaining timer at the
end.  `flushes` logs each executed flush as (fire time, payload array).
-/

def maxBatchSize : Nat := 50

structure Group (α : Type) where
  batch : List α
  timer : Option Nat
  flushes : List (Nat × List α)
  deriving Repr, DecidableEq

/-- Embeds `executeBatch` (lines 110-134) with the remote call succeeding:
returns early on an empty batch; otherwise clears the batch and the timeout
and performs the grouped remote operation (logged as a flush at time
`now`). -/
def execBatch {α : Type} (now : Nat) (g : Group α) : Group α :=
  if g.batch.isEmpty then g
  else { batch := [], timer := none, flushes := g.flushes ++ [(now, g.batch)] }

/-- Embeds `addToBatch` (lines 85-108): push the payload; if the batch
reached `maxBatchSize` execute immediately, else clear any existing timeout
and arm a new one for `now + delay`. -/
def addToBatch {α : Type} (now delay : Nat) (data : α) (g : Group α) :
    Group α :=
  let batch := g.batch ++ [data]
  if maxBatchSize ≤ batch.length then execBatch now { g with batch := batch }
  else { g with batch := batch, timer := some (now + delay) }

/-- Fires the group's timer if its deadline is strictly before time `t`. -/
def fireIfDue {α : Type} (t : Nat) (g : Group α) : Group α :=
  match g.timer with
  | some dl => if dl < t then execBatch dl g else g
  | none => g

/-- Replays a chronological list of `(arrivalTime, payload)` `addToBatch`
calls, then lets any remaining timer fire. -/
def runAdds {α : Type} (delay : Nat) (g : Group α) :
    List (Nat × α) → Group α
  | [] =>
      match g.timer with
      | some dl => execBatch dl g
      | none => g
  | (t, p) :: rest => runAdds delay (addToBatch t delay p (fireIfDue t g)) rest

/-- Arrival times starting from `tPrev` are chronological and each within
`delay` of the previous one. -/
def timesOk {α : Type} (delay : Nat) : Nat → List (Nat × α) → Bool
  | _, [] => true
  | tPrev, (t, _) :: rest =>
      decide (tPrev ≤ t) && decide (t ≤ tPrev + delay) && timesOk delay t rest

/-- Time of the last arrival (`tPrev` if there is none). -/
def lastTime {α : Type} (tPrev : Nat) (es : List (Nat × α)) : Nat :=
  es.foldl (fun _ e => e.1) tPrev

/-- Embeds `executeBatch` (lines 110-144) when the remote call fails: the
batch and timeout are cleared first (lines 115-119); the catch block
(lines 135-143) then — only when `batch.length < 10` — schedules a
`setTimeout(5000)` that re-adds every payload through
`addToBatch(operation, item, 5000)`; a batch of 10 or more payloads is not
re-added at all.  No flush is logged and no per-payload attempt counter
exists anywhere. -/
def execBatchFailing {α : Type} (now : Nat) (g : Group α) : Group α :=
  if g.batch.isEmpty then g
  else
    let cleared : Group α := { batch := [], timer := none, flushes := g.flushes }
    if g.batch.length < 10 then
      g.batch.foldl (fun h item => addToBatch (now + 5000) 5000 item h) cleared
    else cleared

/-- One redrive cycle under a persistently failing remote: the armed timer
fires and the flush fails. -/
def redriveStep {α : Type} (g : Group α) : Group α :=
  match g.timer with
  | some dl => execBatchFailing dl g
  | none => g

def redriveN {α : Type} : Nat → Group α → Group α
  | 0, g => g
  | n + 1, g => redriveN n (redriveStep g)

/-!
Definitions: batchIncrementStoryViews (`databaseOptimizations.ts`
lines 177-197).
-/

/-- A payload of the `story_view_increments` batch kind
(enqueued at `use-optimized-stories.ts` lines 134-137). -/
structure Increment where
  story_uuid : String
  viewer_uuid : String
  deriving Repr, DecidableEq

/-- Argument record of one `supabase.rpc('increment_story_views', ...)`
call (lines 189-192): `story_uuid` plus `viewer_uuid: null`.  No count
argument exists. -/
structure RpcCall where
  story_uuid : String
  viewer_uuid : Option String
  deriving Repr, DecidableEq

/-- Embeds `acc[key] = (acc[key] || 0) + 1` on a plain JS object, whose
string keys enumerate in insertion order. -/
def bump : List (String × Nat) → String → List (String × Nat)
  | [], u => [(u, 1)]
  | (k, n) :: rest, u =>
      if k = u then (k, n + 1) :: rest else (k, n) :: bump rest u

/-- Embeds the `reduce` of lines 181-184: per-`story_uuid` tally of the
batched increments. -/
def groupCounts (increments : List Increment) : List (String × Nat) :=
  increments.foldl (fun acc item => bump acc item.story_uuid) []

/-- Embeds `batchIncrementStoryViews` (lines 177-197): one RPC call per
entry of the grouped tally, in key order; the tallied count is dropped. -/
def batchIncrementStoryViews (increments : List Increment) : List RpcCall :=
  (groupCounts increments).map (fun kv => ⟨kv.1, none⟩)

/-!
Definitions: useOptimizedStories (`use-optimized-stories.ts`).

The hook's ViewState is the `stories` array plus the `viewedStories` set.
A realtime UPDATE payload carries the authoritative row in `payload.new`:
its `id` plus whichever server columns changed; the spread
`{ ...story, ...payload.new }` overwrites exactly the fields present in the
payload (embedded as `Option` fields) and leaves the client-only `viewed`
flag alone.  Timestamps (`created_at`) are `Nat` under the usual order, as
ISO-8601 strings compare chronologically.
-/

structure Story where
  id : String
  user_id : String
  image_url : Option String
  created_at : Nat
  expires_at : Nat
  views_count : Nat
  viewed : Bool
  deriving Repr, DecidableEq

/-- Shape of `payload.new` of a stories UPDATE event: `id` plus the present
columns. -/
structure UpdatePayload where
  id : String
  user_id : Option String
  image_url : Option (Option String)
  created_at : Option Nat
  expires_at : Option Nat
  views_count : Option Nat
  deriving Repr, DecidableEq

/-- Embeds the spread `{ ...story, ...payload.new }` (line 195): fields
present in the payload win; absent fields keep the story's value; `viewed`
is never in the payload. -/
def mergeStory (story : Story) (p : UpdatePayload) : Story :=
  { id := p.id
    user_id := p.user_id.getD story.user_id
    image_url := p.image_url.getD story.image_url
    created_at := p.created_at.getD story.created_at
    expires_at := p.expires_at.getD story.expires_at
    views_count := p.views_count.getD story.views_count
    viewed := story.viewed }

/-- Embeds the realtime UPDATE handler (lines 192-198): map over the
stories, merging the payload into the story whose `id` matches
`payload.new.id`. -/
def handleUpdate (stories : List Story) (p : UpdatePayload) : List Story :=
  stories.map fun story =>
    if story.id = p.id then mergeStory story p else story

/-- A story as last confirmed by the server: 5 views at timestamp 10. -/
def confirmedStory : Story := ⟨"s1", "u1", none, 10, 100, 5, false⟩

/-- A change event for the same entity carrying a strictly older
authoritative timestamp (3 < 10) and the older view count. -/
def olderEvent : UpdatePayload := ⟨"s1", none, none, some 3, none, some 3⟩

/-- State of the hook touched by `markStoryAsViewed`
(`use-optimized-stories.ts` lines 110-155): the stories ViewState, the
viewed-set, the cached viewed-set, the two batch groups it feeds
(`story_views` and `story_view_increments`, both holding
`(story, viewer)` payloads) and the BackgroundSync queue. -/
structure StoriesHook where
  stories : List Story
  viewedStories : List String
  viewedCache : Cache (List String)
  storyViewsGroup : Group (String × String)
  incrementsGroup : Group (String × String)
  syncQueue : List SyncOp
  deriving Repr, DecidableEq

/-- Embeds `markStoryAsViewed(storyId)` (lines 110-155): bail out when
there is no current user or the story is already viewed; otherwise apply the
optimistic overlay (`views_count + 1`, `viewed: true`) to the matching
story, extend the viewed-set, refresh the `viewed_stories_<uid>` cache entry
(ttl 60000), add the view to both batch kinds (default 1000 ms delay) and
enqueue the two fallback mutations on the BackgroundSync queue. -/
def markStoryAsViewed (currentUser : Option String) (st : StoriesHook)
    (storyId : String) (now : Nat) : StoriesHook :=
  match currentUser with
  | none => st
  | some uid =>
      if storyId ∈ st.viewedStories then st
      else
        let newViewed := st.viewedStories ++ [storyId]
        { stories := st.stories.map fun s =>
            if s.id = storyId then
              { s with views_count := s.views_count + 1, viewed := true }
            else s
          viewedStories := newViewed
          viewedCache :=
            cacheSet st.viewedCache ("viewed_stories_" ++ uid) newViewed
              now 60000
          storyViewsGroup :=
            addToBatch now 1000 (storyId, uid) st.storyViewsGroup
          incrementsGroup :=
            addToBatch now 1000 (storyId, uid) st.incrementsGroup
          syncQueue :=
            addToQueue
              (addToQueue st.syncQueue (.story_view storyId uid) now)
              (.increment_views storyId uid) now }

/-- Runs `n` BackgroundSync drains against the hook state: `processQueue`
(lines 392-416) reads and writes only `syncQueue`; no code path reaches back
into the hook's `stories`, so the composition leaves them untouched. -/
def hookAfterDrains (transport : OpData → Option RemoteError) (n : Nat)
    (st : StoriesHook) : StoriesHook :=
  { st with syncQueue := drainN transport n st.syncQueue }

/-- Last server-confirmed ViewState for the C6 scenario. -/
def confirmedViewState : List Story := [⟨"s9", "u1", none, 10, 100, 3, false⟩]

def hook0 : StoriesHook :=
  ⟨confirmedViewState, [], [], ⟨[], none, []⟩, ⟨[], none, []⟩, []⟩

/-!
Theorems.  Claim C1: the TTL invariant of `CacheManager.get`.
-/

theorem cacheLookup_cacheSet {α : Type} (c : Cache α) (key : String)
    (data : α) (now ttl : Nat) :
    cacheLookup key (cacheSet c key data now ttl) = some ⟨data, now, ttl⟩ := by
  simp [cacheSet, cacheLookup]

theorem cacheLookup_cacheErase {α : Type} (key : String) (c : Cache α) :
    cacheLookup key (cacheErase key c) = none := by
  induction c with
  | nil => simp [cacheErase, cacheLookup]
  | cons hd tl ih =>
      obtain ⟨k, v⟩ := hd
      by_cases hk : k = key
      · simpa [cacheErase, hk] using ih
      · simp [cacheErase, cacheLookup, hk, ih]

/-- C1, counterexample: store at time 0 with `ttl = 5` and read at
`now = 5`.  Then `now ≥ storedAt + ttlMs`, yet `get` returns the value
(the code expires only on the strict inequality `now - storedAt > ttl`). -/
theorem C1_counterexample :
    5 ≥ 0 + 5 ∧
      (cacheGet (cacheSet ([] : Cache Nat) "k" 1 0 5) "k" 5).1 = some 1 := by
  constructor
  · decide
  · rfl

/-- C1, amended: for every key stored by `set(k, v, ttlMs)` at `storedAt` and
not since overwritten or deleted, `get(k)` at any `now` with
`now > storedAt + ttlMs` (strictly) returns absent and removes the entry,
even without an intervening `cleanup()` sweep. -/
theorem C1_amended {α : Type} (c : Cache α) (k : String) (v : α)
    (storedAt ttl now : Nat) (h : storedAt + ttl < now) :
    (cacheGet (cacheSet c k v storedAt ttl) k now).1 = none ∧
      cacheLookup k (cacheGet (cacheSet c k v storedAt ttl) k now).2 = none := by
  have hexp : ttl < now - storedAt := by omega
  constructor
  · simp [cacheGet, cacheLookup_cacheSet, if_pos hexp]
  · simp [cacheGet, cacheLookup_cacheSet, if_pos hexp, cacheLookup_cacheErase]

/-- Witness for `C1_amended` at the spec's own scenario:
`set("story:42", 3, 30000)` at time 0, read at simulated time 31000. -/
theorem C1_amended_witness :
    (0 : Nat) + 30000 < 31000 ∧
      ((cacheGet (cacheSet ([] : Cache Nat) "story:42" 3 0 30000)
          "story:42" 31000).1 = none ∧
        cacheLookup "story:42"
          (cacheGet (cacheSet ([] : Cache Nat) "story:42" 3 0 30000)
            "story:42" 31000).2 = none) :=
  ⟨by decide, C1_amended [] "story:42" 3 0 30000 31000 (by decide)⟩

/-!
Claims C2, C3 and C5: bounded retry, error classification and FIFO order of
the BackgroundSync drain.
-/

/-- A single always-failing drain of a one-element queue re-queues the
operation with `retries + 1` as long as `retries < maxRetries`, and drops it
otherwise. -/
theorem processQueue_single (e : RemoteError) (d : OpData) (ts r : Nat) :
    (processQueue (alwaysFail e) [⟨d, ts, r⟩]).1 =
      if r < maxRetries then [⟨d, ts, r + 1⟩] else [] := by
  by_cases hr : r < maxRetries <;>
    simp [processQueue, alwaysFail, hr]

/-- C2, counterexample: a mutation enqueued with an always-failing transport
and `maxRetries = 3` is still in the queue after exactly 3 failed drain
attempts (its `retries` counter has reached 3); the claim says it is
abandoned and removed after exactly 3. -/
theorem C2_counterexample :
    drainN (alwaysFail someNetErr) 3
        [⟨.notification "n", 0, 0⟩] = [⟨.notification "n", 0, 3⟩] ∧
      drainN (alwaysFail someNetErr) 3 [⟨.notification "n", 0, 0⟩] ≠ [] := by
  constructor
  · rfl
  · decide

/-- C2, amended: with an always-failing transport and `maxRetries = 3`, the
attempt counter increments by one on each of the first 3 failed drain
attempts (after `n ≤ 3` failed drains the entry sits in the queue with
`retries = n`), and the entry is abandoned — removed from the queue, never
attempted again — after exactly 4 = `maxRetries + 1` failed drain attempts
(the final failure drops it without incrementing). -/
theorem C2_amended (e : RemoteError) (d : OpData) (ts : Nat) :
    (∀ n, n ≤ 3 →
        drainN (alwaysFail e) n [⟨d, ts, 0⟩] = [⟨d, ts, n⟩]) ∧
      drainN (alwaysFail e) 4 [⟨d, ts, 0⟩] = [] := by
  have h0 : ∀ r, (processQueue (alwaysFail e) [⟨d, ts, r⟩]).1 =
      if r < maxRetries then [⟨d, ts, r + 1⟩] else [] :=
    fun r => processQueue_single e d ts r
  constructor
  · intro n hn
    interval_cases n <;> simp [drainN, h0, maxRetries]
  · simp [drainN, h0, maxRetries]

/-- Witness for `C2_amended`: the spec scenario with a network-failing
notification payload. -/
theorem C2_amended_witness :
    drainN (alwaysFail someNetErr) 2
        [⟨.notification "n", 5, 0⟩] = [⟨.notification "n", 5, 2⟩] ∧
      drainN (alwaysFail someNetErr) 4 [⟨.notification "n", 5, 0⟩] = [] :=
  ⟨(C2_amended someNetErr (.notification "n") 5).1 2 (by decide),
    (C2_amended someNetErr (.notification "n") 5).2⟩

/-- C3, counterexample: a queued mutation whose remote call fails with a
validation error (`isNetworkError` is false) is NOT abandoned on the first
failure: `processQueue` re-queues it with `retries = 1`, exactly as it would
a network error — the catch block never classifies the error. -/
theorem C3_counterexample :
    isNetworkError validationErr = false ∧
      (processQueue (alwaysFail validationErr)
          [⟨.increment_views "s1" "u1", 0, 0⟩]).1 =
        [⟨.increment_views "s1" "u1", 0, 1⟩] := by
  constructor
  · rfl
  · rfl

/-- C3, amended: `processQueue` treats every failure identically regardless
of its classification: any error — network or not — re-enters the retry path
(re-queued with `retries + 1`) while `retries < maxRetries`, and is dropped
only once the retry budget is exhausted.  Validation/conflict errors are
never terminal on first failure. -/
theorem C3_amended (e : RemoteError) (d : OpData) (ts r : Nat)
    (hr : r < maxRetries) :
    (processQueue (alwaysFail e) [⟨d, ts, r⟩]).1 = [⟨d, ts, r + 1⟩] := by
  rw [processQueue_single, if_pos hr]

/-- Witness for `C3_amended` at the validation error. -/
theorem C3_amended_witness :
    (0 : Nat) < maxRetries ∧
      (processQueue (alwaysFail validationErr)
          [⟨.story_view "s1" "u1", 7, 0⟩]).1 =
        [⟨.story_view "s1" "u1", 7, 1⟩] :=
  ⟨by decide, C3_amended validationErr (.story_view "s1" "u1") 7 0 (by decide)⟩

/-- C5, confirmed: mutations A then B enqueued (while offline, so no drain
interleaves) are drained strictly in FIFO order, A's remote call settling
before B's starts — for every transport outcome: the trace of the drain over
the queue `addToQueue (addToQueue [] A) B` is exactly
`[start A, settled A, start B, settled B]`. -/
theorem C5_fifo (transport : OpData → Option RemoteError)
    (a b : OpData) (ta tb : Nat) :
    (processQueue transport (addToQueue (addToQueue [] a ta) b tb)).2 =
      [.start a, .settled a, .start b, .settled b] := by
  cases ha : transport a <;> cases hb : transport b <;>
    simp [processQueue, addToQueue, ha, hb] <;> split <;> simp

/-- Witness for `C5_fifo`: the two story-view mutations that
`markStoryAsViewed` enqueues, against the always-failing transport. -/
theorem C5_fifo_witness :
    (processQueue (alwaysFail someNetErr)
        (addToQueue (addToQueue [] (.story_view "a" "u") 0)
          (.increment_views "a" "u") 1)).2 =
      [.start (.story_view "a" "u"), .settled (.story_view "a" "u"),
        .start (.increment_views "a" "u"),
        .settled (.increment_views "a" "u")] :=
  C5_fifo (alwaysFail someNetErr) (.story_view "a" "u")
    (.increment_views "a" "u") 0 1

/-!
Claim C4: debounce coalescing of `BatchOperations.addToBatch`.
-/

theorem addToBatch_small {α : Type} (now delay : Nat) (data : α)
    (g : Group α) (h : g.batch.length + 1 < maxBatchSize) :
    addToBatch now delay data g =
      { g with batch := g.batch ++ [data], timer := some (now + delay) } := by
  have hs : ¬ maxBatchSize ≤ g.batch.length + 1 := by omega
  simp [addToBatch, hs]

theorem runAdds_go {α : Type} (delay : Nat) (es : List (Nat × α)) :
    ∀ (bs : List α) (tPrev : Nat) (fl : List (Nat × List α)),
      bs ≠ [] → bs.length + es.length < maxBatchSize →
      timesOk delay tPrev es = true →
      (runAdds delay ⟨bs, some (tPrev + delay), fl⟩ es).flushes =
        fl ++ [(lastTime tPrev es + delay, bs ++ es.map Prod.snd)] := by
  induction es with
  | nil =>
      intro bs tPrev fl hbs _ _
      obtain ⟨b, bs', rfl⟩ := List.exists_cons_of_ne_nil hbs
      simp [runAdds, execBatch, lastTime]
  | cons e rest ih =>
      obtain ⟨t, p⟩ := e
      intro bs tPrev fl hbs hlen htimes
      simp only [timesOk, Bool.and_eq_true, decide_eq_true_eq] at htimes
      obtain ⟨⟨h1, h2⟩, h3⟩ := htimes
      have hnf : ¬ tPrev + delay < t := by omega
      have hsmall : bs.length + 1 < maxBatchSize := by
        simp only [List.length_cons] at hlen
        omega
      have hfire : fireIfDue t (⟨bs, some (tPrev + delay), fl⟩ : Group α) =
          ⟨bs, some (tPrev + delay), fl⟩ := by
        simp [fireIfDue, hnf]
      have hadd := addToBatch_small t delay p
        (⟨bs, some (tPrev + delay), fl⟩ : Group α) hsmall
      have hrec := ih (bs ++ [p]) t fl (by simp)
        (by simp only [List.length_append, List.length_cons,
              List.length_nil] at hlen ⊢; omega) h3
      simp only [runAdds, hfire, hadd]
      simpa [lastTime, List.append_assoc] using hrec

/-- C4, confirmed: `N` calls `addToBatch(x, p_i, delay)` at chronological
times each within `delay` of the previous one, with `N < maxBatchSize`,
produce exactly one flush of group `x`; it contains all `N` payloads in
arrival order and fires at `delay` after the last call — each new arrival
cancels and re-arms the pending timer rather than stacking a second one. -/
theorem C4_coalescing {α : Type} (delay t1 : Nat) (p1 : α)
    (rest : List (Nat × α)) (hN : rest.length + 1 < maxBatchSize)
    (ht : timesOk delay t1 rest = true) :
    (runAdds delay ⟨[], none, []⟩ ((t1, p1) :: rest)).flushes =
      [(lastTime t1 rest + delay, p1 :: rest.map Prod.snd)] := by
  have hfire : fireIfDue t1 (⟨[], none, []⟩ : Group α) = ⟨[], none, []⟩ := rfl
  have hadd : addToBatch t1 delay p1 (⟨[], none, []⟩ : Group α) =
      ⟨[p1], some (t1 + delay), []⟩ := by
    have := addToBatch_small t1 delay p1 (⟨[], none, []⟩ : Group α)
      (by simp [maxBatchSize])
    simpa using this
  have hrec := runAdds_go delay rest [p1] t1 [] (by simp)
    (by simp only [List.length_singleton]; omega) ht
  simp only [runAdds, hfire, hadd]
  simpa using hrec

/-- Witness for `C4_coalescing` at the spec scenario: three adds at t = 0, 200,
400 ms with `delay = 1000` yield exactly one flush at t = 1400 ms holding
all three payloads in order. -/
theorem C4_coalescing_witness :
    (([(200, 2), (400, 3)] : List (Nat × Nat)).length + 1 < maxBatchSize ∧
        timesOk 1000 0 ([(200, 2), (400, 3)] : List (Nat × Nat)) = true) ∧
      (runAdds 1000 ⟨[], none, []⟩
          ([(0, 1), (200, 2), (400, 3)] : List (Nat × Nat))).flushes =
        [(1400, [1, 2, 3])] := by
  refine ⟨⟨by decide, by decide⟩, ?_⟩
  have h := C4_coalescing 1000 0 1 ([(200, 2), (400, 3)] : List (Nat × Nat))
    (by decide) (by decide)
  simpa [lastTime] using h

/-!
Claim C8: the redrive path of a failed flush.
-/

theorem redriveStep_single {α : Type} (p : α) (dl : Nat)
    (fl : List (Nat × List α)) :
    redriveStep (⟨[p], some dl, fl⟩ : Group α) =
      ⟨[p], some (dl + 5000 + 5000), fl⟩ := by
  simp [redriveStep, execBatchFailing, addToBatch, maxBatchSize]

/-- C8: the redrive guard is `batch.length < 10`, not a per-payload attempt
cap.  A single-payload batch that the remote store persistently rejects is
redriven forever — after any number `n` of failed-flush cycles it is still
pending, re-armed 10 s later each cycle, never dropped — while a batch of 10
payloads is dropped outright (payloads lost, nothing re-queued) on its first
failed flush. -/
theorem C8_redrive {α : Type} (p : α) :
    (∀ (n dl : Nat) (fl : List (Nat × List α)),
        redriveN n (⟨[p], some dl, fl⟩ : Group α) =
          ⟨[p], some (dl + 10000 * n), fl⟩) ∧
      ∀ (qs : List α) (now : Nat) (fl : List (Nat × List α)),
        10 ≤ qs.length →
        execBatchFailing now (⟨qs, none, fl⟩ : Group α) = ⟨[], none, fl⟩ := by
  constructor
  · intro n
    induction n with
    | zero => intro dl fl; simp [redriveN]
    | succ m ih =>
        intro dl fl
        rw [redriveN, redriveStep_single, ih]
        ring_nf
  · intro qs now fl hlen
    have hne : qs.isEmpty = false := by
      cases qs with
      | nil => simp at hlen
      | cons a as => rfl
    have hge : ¬ qs.length < 10 := by omega
    simp [execBatchFailing, hne, hge]

/-- Witness for `C8_redrive`: a lone rejected payload survives three redrive
cycles unchanged, and a 10-payload batch is emptied by one failed flush. -/
theorem C8_redrive_witness :
    redriveN 3 (⟨["p"], some 0, []⟩ : Group String) =
        ⟨["p"], some 30000, []⟩ ∧
      execBatchFailing 0
          (⟨List.replicate 10 "q", none, []⟩ : Group String) =
        ⟨[], none, []⟩ :=
  ⟨by simpa using (C8_redrive "p").1 3 0 [],
    (C8_redrive "p").2 (List.replicate 10 "q") 0 [] (by decide)⟩

/-!
Claim C10: grouping of `story_view_increments` payloads.
-/

theorem bump_keys_mem (acc : List (String × Nat)) (u u' : String) :
    u' ∈ (bump acc u).map Prod.fst ↔ u' ∈ acc.map Prod.fst ∨ u' = u := by
  induction acc with
  | nil => simp [bump]
  | cons kv rest ih =>
      obtain ⟨k, n⟩ := kv
      by_cases hk : k = u
      · subst hk
        simp [bump]
        tauto
      · simp [bump, hk, ih]
        tauto

theorem bump_keys_of_mem (acc : List (String × Nat)) (u : String)
    (h : u ∈ acc.map Prod.fst) :
    (bump acc u).map Prod.fst = acc.map Prod.fst := by
  induction acc with
  | nil => simp at h
  | cons kv rest ih =>
      obtain ⟨k, n⟩ := kv
      by_cases hk : k = u
      · simp [bump, hk]
      · simp only [List.map_cons, List.mem_cons] at h
        rcases h with h | h
        · exact absurd h.symm hk
        · simp [bump, hk, ih h]

theorem bump_keys_nodup (acc : List (String × Nat)) (u : String)
    (h : (acc.map Prod.fst).Nodup) : ((bump acc u).map Prod.fst).Nodup := by
  induction acc with
  | nil => simp [bump]
  | cons kv rest ih =>
      obtain ⟨k, n⟩ := kv
      simp only [List.map_cons, List.nodup_cons] at h
      by_cases hk : k = u
      · simp only [bump, if_pos hk, List.map_cons, List.nodup_cons]
        exact h
      · simp only [bump, if_neg hk, List.map_cons, List.nodup_cons]
        refine ⟨?_, ih h.2⟩
        rw [bump_keys_mem]
        rintro (hm | rfl)
        · exact h.1 hm
        · exact hk rfl

theorem foldl_bump_mem (l : List Increment) :
    ∀ (acc : List (String × Nat)) (u : String),
      u ∈ ((l.foldl (fun a i => bump a i.story_uuid) acc).map Prod.fst) ↔
        u ∈ acc.map Prod.fst ∨ u ∈ l.map Increment.story_uuid := by
  induction l with
  | nil => intro acc u; simp
  | cons i rest ih =>
      intro acc u
      simp only [List.foldl_cons, List.map_cons, List.mem_cons]
      rw [ih, bump_keys_mem]
      tauto

theorem foldl_bump_nodup (l : List Increment) :
    ∀ acc : List (String × Nat), (acc.map Prod.fst).Nodup →
      ((l.foldl (fun a i => bump a i.story_uuid) acc).map Prod.fst).Nodup := by
  induction l with
  | nil => intro acc h; simpa using h
  | cons i rest ih =>
      intro acc h
      simp only [List.foldl_cons]
      exact ih _ (bump_keys_nodup acc i.story_uuid h)

theorem groupCounts_keys_nodup (l : List Increment) :
    ((groupCounts l).map Prod.fst).Nodup :=
  foldl_bump_nodup l [] (by simp)

theorem groupCounts_keys_mem (l : List Increment) (u : String) :
    u ∈ (groupCounts l).map Prod.fst ↔ u ∈ l.map Increment.story_uuid := by
  rw [groupCounts, foldl_bump_mem]
  simp

/-- C10, confirmed: a `story_view_increments` flush issues exactly one
`increment_story_views` RPC per distinct `story_uuid` appearing in the
batched increments — each call carrying only the uuid and `viewer_uuid:
null`, never the tallied count — and an additional increment for an
already-present story leaves the RPC call list entirely unchanged. -/
theorem C10_grouping (increments : List Increment) (u : String) :
    ((batchIncrementStoryViews increments).count (⟨u, none⟩ : RpcCall) =
        if u ∈ increments.map Increment.story_uuid then 1 else 0) ∧
      ∀ i : Increment, i.story_uuid ∈ increments.map Increment.story_uuid →
        batchIncrementStoryViews (increments ++ [i]) =
          batchIncrementStoryViews increments := by
  constructor
  · have hinj : Function.Injective (fun k : String => (⟨k, none⟩ : RpcCall)) := by
      intro a b hab
      simpa using congrArg RpcCall.story_uuid hab
    have hmap : batchIncrementStoryViews increments =
        ((groupCounts increments).map Prod.fst).map
          (fun k => (⟨k, none⟩ : RpcCall)) := by
      simp [batchIncrementStoryViews, List.map_map, Function.comp]
    rw [hmap, List.count_map_of_injective _ _ hinj u]
    by_cases hu : u ∈ increments.map Increment.story_uuid
    · rw [if_pos hu]
      exact List.count_eq_one_of_mem (groupCounts_keys_nodup increments)
        ((groupCounts_keys_mem increments u).mpr hu)
    · rw [if_neg hu]
      exact List.count_eq_zero_of_not_mem
        (fun hm => hu ((groupCounts_keys_mem increments u).mp hm))
  · intro i hi
    have hkeys : (groupCounts (increments ++ [i])).map Prod.fst =
        (groupCounts increments).map Prod.fst := by
      rw [groupCounts, groupCounts, List.foldl_append, List.foldl_cons,
        List.foldl_nil]
      exact bump_keys_of_mem _ _
        ((groupCounts_keys_mem increments i.story_uuid).mpr hi)
    have h1 : batchIncrementStoryViews (increments ++ [i]) =
        ((groupCounts (increments ++ [i])).map Prod.fst).map
          (fun k => (⟨k, none⟩ : RpcCall)) := by
      simp [batchIncrementStoryViews, List.map_map, Function.comp]
    have h2 : batchIncrementStoryViews increments =
        ((groupCounts increments).map Prod.fst).map
          (fun k => (⟨k, none⟩ : RpcCall)) := by
      simp [batchIncrementStoryViews, List.map_map, Function.comp]
    rw [h1, h2, hkeys]

/-- Witness for `C10_grouping`: two increments for `"s1"` and one for `"s2"`
produce exactly one RPC for each uuid, and appending yet another `"s1"`
increment leaves the RPC list unchanged. -/
theorem C10_grouping_witness :
    ((batchIncrementStoryViews
          [⟨"s1", "u1"⟩, ⟨"s2", "u1"⟩, ⟨"s1", "u2"⟩]).count
        (⟨"s1", none⟩ : RpcCall) = 1) ∧
      batchIncrementStoryViews
          ([⟨"s1", "u1"⟩, ⟨"s2", "u1"⟩, ⟨"s1", "u2"⟩] ++ [⟨"s1", "u3"⟩]) =
        batchIncrementStoryViews [⟨"s1", "u1"⟩, ⟨"s2", "u1"⟩, ⟨"s1", "u2"⟩] := by
  constructor
  · have h := (C10_grouping [⟨"s1", "u1"⟩, ⟨"s2", "u1"⟩, ⟨"s1", "u2"⟩] "s1").1
    simpa using h
  · exact (C10_grouping [⟨"s1", "u1"⟩, ⟨"s2", "u1"⟩, ⟨"s1", "u2"⟩] "s1").2
      ⟨"s1", "u3"⟩ (by decide)

/-!
Claims C9 and C7: idempotence of the UPDATE merge, and the absence of a
timestamp tie-break.
-/

theorem mergeStory_id (story : Story) (p : UpdatePayload) :
    (mergeStory story p).id = p.id := rfl

theorem opt_getD_getD {β : Type} (o : Option β) (x : β) :
    o.getD (o.getD x) = o.getD x := by
  cases o <;> rfl

theorem mergeStory_idem (story : Story) (p : UpdatePayload) :
    mergeStory (mergeStory story p) p = mergeStory story p := by
  simp [mergeStory, opt_getD_getD]

/-- C9, confirmed: applying the same UPDATE change event twice to the
stories array yields a state identical to applying it once — the spread
merge `{ ...story, ...payload.new }` is idempotent. -/
theorem C9_idem (stories : List Story) (p : UpdatePayload) :
    handleUpdate (handleUpdate stories p) p = handleUpdate stories p := by
  induction stories with
  | nil => rfl
  | cons s rest ih =>
      simp only [handleUpdate, List.map_cons] at ih ⊢
      rw [ih]
      by_cases h : s.id = p.id
      · simp [h, mergeStory_id, mergeStory_idem]
      · simp [h]

/-- Witness for `C9_idem` at a concrete state and event. -/
theorem C9_idem_witness :
    handleUpdate (handleUpdate [confirmedStory] olderEvent) olderEvent =
      handleUpdate [confirmedStory] olderEvent :=
  C9_idem [confirmedStory] olderEvent

/-- C7, counterexample: after state reflecting authoritative timestamp 10
(`confirmedStory`), a subsequently-arriving event for the same entity with
strictly older timestamp 3 is NOT a no-op: the handler merges it and the
ViewState changes (views_count 5 → 3, created_at 10 → 3). -/
theorem C7_counterexample :
    olderEvent.created_at = some 3 ∧ confirmedStory.created_at = 10 ∧
      (3 : Nat) < 10 ∧
      handleUpdate [confirmedStory] olderEvent ≠ [confirmedStory] ∧
      handleUpdate [confirmedStory] olderEvent =
        [⟨"s1", "u1", none, 3, 100, 3, false⟩] := by
  refine ⟨rfl, rfl, by decide, ?_, ?_⟩ <;> decide

/-- C7, amended: the UPDATE handler performs no timestamp comparison — any
event whose `new.id` matches is merged unconditionally (last-arrival-wins),
so a strictly-older event arriving after a newer one overwrites the newer
values; in particular the state adopts the older event's timestamp. -/
theorem C7_amended (s : Story) (p : UpdatePayload) (t1 : Nat)
    (hid : s.id = p.id) (ht : p.created_at = some t1)
    (hlt : t1 < s.created_at) :
    handleUpdate [s] p = [mergeStory s p] ∧
      (mergeStory s p).created_at = t1 ∧ mergeStory s p ≠ s := by
  refine ⟨by simp [handleUpdate, hid], by simp [mergeStory, ht], ?_⟩
  intro he
  have := congrArg Story.created_at he
  simp [mergeStory, ht] at this
  omega

/-- Witness for `C7_amended` at `confirmedStory` and `olderEvent`. -/
theorem C7_amended_witness :
    (confirmedStory.id = olderEvent.id ∧
        olderEvent.created_at = some 3 ∧ 3 < confirmedStory.created_at) ∧
      handleUpdate [confirmedStory] olderEvent =
          [mergeStory confirmedStory olderEvent] ∧
        (mergeStory confirmedStory olderEvent).created_at = 3 ∧
        mergeStory confirmedStory olderEvent ≠ confirmedStory :=
  ⟨⟨rfl, rfl, by decide⟩,
    C7_amended confirmedStory olderEvent 3 rfl rfl (by decide)⟩

/-!
Claim C6: no revert of the optimistic overlay on abandonment.
-/

/-- C6, counterexample: user `u2` optimistically marks story `s9` viewed;
the queued durable writes are then abandoned (the always-failing transport
empties the queue after 4 drains), yet the ViewState still carries the full
optimistic overlay — `views_count` 4 and `viewed` true — and differs from
the last server-confirmed snapshot; nothing reverted it. -/
theorem C6_counterexample :
    drainN (alwaysFail someNetErr) 4
        (markStoryAsViewed (some "u2") hook0 "s9" 0).syncQueue = [] ∧
      (hookAfterDrains (alwaysFail someNetErr) 4
            (markStoryAsViewed (some "u2") hook0 "s9" 0)).stories ≠
        confirmedViewState ∧
      (hookAfterDrains (alwaysFail someNetErr) 4
            (markStoryAsViewed (some "u2") hook0 "s9" 0)).stories =
        [⟨"s9", "u1", none, 10, 100, 4, true⟩] := by
  refine ⟨?_, ?_, ?_⟩ <;> decide

/-- C6, amended: abandonment does not undo the optimistic overlay.  After
`markStoryAsViewed` and any number of drains — including enough for the
always-failing transport to abandon every queued write — the ViewState is
still the optimistic image (matching story incremented and flagged viewed),
not the server-confirmed snapshot, and no error event is produced for the
UI: the code has no revert path from the queue back to the hook. -/
theorem C6_amended (st : StoriesHook) (uid storyId : String) (now n : Nat)
    (hnew : storyId ∉ st.viewedStories) :
    (hookAfterDrains (alwaysFail someNetErr) n
          (markStoryAsViewed (some uid) st storyId now)).stories =
      st.stories.map (fun s =>
        if s.id = storyId then
          { s with views_count := s.views_count + 1, viewed := true }
        else s) := by
  simp [hookAfterDrains, markStoryAsViewed, hnew]

/-- Witness for `C6_amended` at the C6 scenario state. -/
theorem C6_amended_witness :
    "s9" ∉ hook0.viewedStories ∧
      (hookAfterDrains (alwaysFail someNetErr) 4
            (markStoryAsViewed (some "u2") hook0 "s9" 0)).stories =
        hook0.stories.map (fun s =>
          if s.id = "s9" then
            { s with views_count := s.views_count + 1, viewed := true }
          else s) :=
  ⟨by decide, C6_amended hook0 "u2" "s9" 0 4 (by decide)⟩

end DBOpt
